import Mathlib

/-!
Verification of `scripts/process_data.py` (nerfstudio data-processing pipeline).

Numerics are modelled over `ℚ`; numpy float arrays become `Matrix` over `ℚ`.
-/

namespace ProcessData

abbrev M4 := Matrix (Fin 4) (Fin 4) ℚ
abbrev M3 := Matrix (Fin 3) (Fin 3) ℚ
abbrev V3 := Fin 3 → ℚ

/-- `w2c = np.concatenate([np.concatenate([rotation, translation], 1), [[0,0,0,1]]], 0)`
(process_data.py lines 479-480 and 625-626): the 4×4 world-to-camera matrix
`[[R | t], [0,0,0,1]]` built from a 3×3 rotation and a 3-vector translation. -/
def w2cOf (R : M3) (t : V3) : M4 :=
  Matrix.of fun i j =>
    if hi : (i : ℕ) < 3 then
      if hj : (j : ℕ) < 3 then R ⟨i, hi⟩ ⟨j, hj⟩ else t ⟨i, hi⟩
    else
      if (j : ℕ) = 3 then 1 else 0

/-- Model of `np.linalg.inv` on a nonsingular 4×4 matrix: the classical
adjugate formula `A⁻¹ = det(A)⁻¹ · adj(A)`.  On a singular matrix numpy
raises `LinAlgError`; the fallible wrapper `npLinalgInvE` below models that. -/
def npLinalgInvMat (A : M4) : M4 := A.det⁻¹ • A.adjugate

/-- `c2w[0:3, 1:3] *= -1` (lines 483 and 630): negate columns 1 and 2 of the
first three rows. -/
def flipCols12 (M : M4) : M4 :=
  Matrix.of fun i j => if (i : ℕ) ≠ 3 ∧ ((j : ℕ) = 1 ∨ (j : ℕ) = 2) then -(M i j) else M i j

/-- `c2w = c2w[np.array([1,0,2,3]), :]` (lines 484 and 632): permute rows to
order `[1,0,2,3]`. -/
def permRows1023 (M : M4) : M4 :=
  Matrix.of fun i j => M (![1, 0, 2, 3] i) j

/-- `c2w[2, :] *= -1` (lines 485 and 633): negate row 2 entirely. -/
def negRow2 (M : M4) : M4 :=
  Matrix.of fun i j => if (i : ℕ) = 2 then -(M i j) else M i j

/-- The camera-to-world matrix written for one frame by `colmap_to_json`
(lines 477-485): build `w2c`, invert, negate columns 1:3 of rows 0:3,
permute rows `[1,0,2,3]`, negate row 2. -/
def colmapC2W (R : M3) (t : V3) : M4 :=
  negRow2 (permRows1023 (flipCols12 (npLinalgInvMat (w2cOf R t))))

/-- The camera-to-world matrix written for one frame by `opensfm_to_json`
(lines 625-633): textually the same pipeline as the COLMAP path. -/
def opensfmC2W (R : M3) (t : V3) : M4 :=
  negRow2 (permRows1023 (flipCols12 (npLinalgInvMat (w2cOf R t))))

/-- Modelled from the spec (§4.1 step 1): build world-to-camera 4×4
`W2C = [[R | t],[0,0,0,1]]`. -/
def specW2C (R : M3) (t : V3) : M4 :=
  Matrix.of fun i j =>
    if hi : (i : ℕ) < 3 then
      if hj : (j : ℕ) < 3 then R ⟨i, hi⟩ ⟨j, hj⟩ else t ⟨i, hi⟩
    else
      if (j : ℕ) = 3 then 1 else 0

/-- Modelled from the spec (§4.1 step 2): `C2W = inverse(W2C)`, via the
adjugate formula. -/
def specInvert (A : M4) : M4 := A.det⁻¹ • A.adjugate

/-- Modelled from the spec (§4.1 step 3): negate columns 1 and 2 (0-indexed)
of the top-left 3×3 block, i.e. `C2W[0:3,1:3] *= -1`. -/
def specStep3 (M : M4) : M4 :=
  Matrix.of fun i j => if (i : ℕ) ≠ 3 ∧ ((j : ℕ) = 1 ∨ (j : ℕ) = 2) then -(M i j) else M i j

/-- Modelled from the spec (§4.1 step 4): permute rows `[1,0,2,3]`. -/
def specStep4 (M : M4) : M4 :=
  Matrix.of fun i j => M (![1, 0, 2, 3] i) j

/-- Modelled from the spec (§4.1 step 5): negate row 2 entirely. -/
def specStep5 (M : M4) : M4 :=
  Matrix.of fun i j => if (i : ℕ) = 2 then -(M i j) else M i j

/-- The canonical camera-to-world matrix prescribed by spec §4.1. -/
def specC2W (R : M3) (t : V3) : M4 :=
  specStep5 (specStep4 (specStep3 (specInvert (specW2C R t))))

/-- Sanity lemma: `npLinalgInvMat` really is the matrix inverse on
nonsingular input. -/
lemma npLinalgInvMat_mul (A : M4) (h : A.det ≠ 0) : A * npLinalgInvMat A = 1 := by
  unfold npLinalgInvMat
  rw [Matrix.mul_smul, Matrix.mul_adjugate, smul_smul, inv_mul_cancel₀ h, one_smul]

/-- Fallible model of `np.linalg.inv`: numpy raises `LinAlgError` exactly when
the matrix is singular, which propagates as an uncaught exception. -/
def npLinalgInvE (A : M4) : Except Unit M4 :=
  if A.det = 0 then .error () else .ok (npLinalgInvMat A)

/-- One iteration of the frames loop of `colmap_to_json` / `opensfm_to_json`
(lines 477-485 resp. 625-633), starting from the rotation matrix and
translation of one image: any inversion error escapes the loop. -/
def convertPoseE (R : M3) (t : V3) : Except Unit M4 :=
  (npLinalgInvE (w2cOf R t)).map fun c2w => negRow2 (permRows1023 (flipCols12 c2w))

/-- The frames loop of `colmap_to_json` / `opensfm_to_json` over the whole
image list: a Python `for` loop with no `try`/`except`, so the first
exception aborts the entire function (and hence the run) before
`transforms.json` is written. -/
def convertFramesE : List (M3 × V3) → Except Unit (List M4)
  | [] => .ok []
  | p :: ps => do
      let c ← convertPoseE p.1 p.2
      let rest ← convertFramesE ps
      return c :: rest

lemma convertFramesE_error {ps : List (M3 × V3)} (p : M3 × V3) (hmem : p ∈ ps)
    (hdet : (w2cOf p.1 p.2).det = 0) : convertFramesE ps = .error () := by
  induction ps with
  | nil => cases hmem
  | cons q qs ih =>
    rcases List.mem_cons.mp hmem with h | h
    · subst h
      simp only [convertFramesE, convertPoseE, npLinalgInvE, hdet, if_pos rfl, Except.map]
      rfl
    · cases hq : convertPoseE q.1 q.2 with
      | error e => simp only [convertFramesE, hq]; rfl
      | ok c =>
        simp only [convertFramesE, hq, ih h]
        rfl

/-! ### Frame sampler (`ProcessRecord3D.main` lines 1232-1234,
`ProcessPolycam.main` lines 1330-1332) -/

/-- The `i`-th value of `np.linspace(start, stop, num)` (endpoint included).
For `num ≤ 1` numpy returns only the start point. -/
def linVal (start stop : ℚ) (num i : ℕ) : ℚ :=
  if num ≤ 1 then start else start + i * (stop - start) / ((num : ℚ) - 1)

/-- `np.linspace(start, stop, num)`, exact over `ℚ`. -/
def npLinspace (start stop : ℚ) (num : ℕ) : List ℚ :=
  (List.range num).map (linVal start stop num)

/-- `np.round`: round half to even (banker's rounding), as numpy does. -/
def npRound (q : ℚ) : ℤ :=
  if q - ⌊q⌋ < 1 / 2 then ⌊q⌋
  else if 1 / 2 < q - ⌊q⌋ then ⌊q⌋ + 1
  else if Even ⌊q⌋ then ⌊q⌋ else ⌊q⌋ + 1

/-- `idx = np.arange(num_images)`;\
`if max_dataset_size != -1 and num_images > max_dataset_size:`\
`  idx = np.round(np.linspace(0, num_images - 1, max_dataset_size)).astype(int)`. -/
def frameSampler (N : ℕ) (maxSize : ℤ) : List ℤ :=
  if maxSize ≠ -1 ∧ (N : ℤ) > maxSize then
    (npLinspace 0 ((N : ℚ) - 1) maxSize.toNat).map npRound
  else
    (List.range N).map Int.ofNat

lemma npRound_eq_or (q : ℚ) : npRound q = ⌊q⌋ ∨ npRound q = ⌊q⌋ + 1 := by
  unfold npRound
  split_ifs <;> simp

lemma floor_le_npRound (q : ℚ) : ⌊q⌋ ≤ npRound q := by
  rcases npRound_eq_or q with h | h <;> omega

lemma npRound_le_floor_add_one (q : ℚ) : npRound q ≤ ⌊q⌋ + 1 := by
  rcases npRound_eq_or q with h | h <;> omega

lemma npRound_mono {a b : ℚ} (hab : a ≤ b) : npRound a ≤ npRound b := by
  have hf : ⌊a⌋ ≤ ⌊b⌋ := Int.floor_mono hab
  rcases eq_or_lt_of_le hf with he | hl
  · unfold npRound
    rw [← he]
    split_ifs <;> first | omega | (exfalso; linarith)
  · calc npRound a ≤ ⌊a⌋ + 1 := npRound_le_floor_add_one a
      _ ≤ ⌊b⌋ := by omega
      _ ≤ npRound b := floor_le_npRound b

lemma npRound_intCast (n : ℤ) : npRound (n : ℚ) = n := by
  unfold npRound
  rw [Int.floor_intCast]
  norm_num

lemma linVal_mono (start stop : ℚ) (num : ℕ) {i j : ℕ} (hs : start ≤ stop)
    (hij : i ≤ j) : linVal start stop num i ≤ linVal start stop num j := by
  unfold linVal
  split_ifs with h
  · exact le_refl _
  · have hnum : (1 : ℚ) ≤ (num : ℚ) - 1 := by
      have : 2 ≤ num := by omega
      have : (2 : ℚ) ≤ (num : ℚ) := by exact_mod_cast this
      linarith
    have hc : 0 ≤ (stop - start) / ((num : ℚ) - 1) :=
      div_nonneg (by linarith) (by linarith)
    have hij' : (i : ℚ) ≤ (j : ℚ) := by exact_mod_cast hij
    rw [mul_div_assoc, mul_div_assoc]
    have := mul_le_mul_of_nonneg_right hij' hc
    linarith

lemma linVal_zero (start stop : ℚ) (num : ℕ) : linVal start stop num 0 = start := by
  unfold linVal
  split_ifs <;> simp

lemma linVal_last (start stop : ℚ) {num : ℕ} (h : 2 ≤ num) :
    linVal start stop num (num - 1) = stop := by
  unfold linVal
  rw [if_neg (by omega)]
  have h1 : ((num - 1 : ℕ) : ℚ) = (num : ℚ) - 1 := by
    have : (1 : ℕ) ≤ num := by omega
    push_cast [Nat.cast_sub this]
    ring
  have h2 : (num : ℚ) - 1 ≠ 0 := by
    have : (2 : ℚ) ≤ (num : ℚ) := by exact_mod_cast h
    intro hc
    linarith
  rw [h1, mul_comm, mul_div_assoc, div_self h2, mul_one]
  ring

/-! ### Polycam (`polycam_to_json`, lines 803-870) -/

/-- One per-frame Polycam camera json: `{fx,fy,cx,cy,width,height,
t_00..t_23, blur_score?}`.  Only the fields the claims touch are kept. -/
structure PolyFrameJson where
  blur_score : Option ℚ := none
  t00 : ℚ := 0
  t01 : ℚ := 0
  t02 : ℚ := 0
  t03 : ℚ := 0
  t10 : ℚ := 0
  t11 : ℚ := 0
  t12 : ℚ := 0
  t13 : ℚ := 0
  t20 : ℚ := 0
  t21 : ℚ := 0
  t22 : ℚ := 0
  t23 : ℚ := 0

/-- `if "blur_score" in frame_json and frame_json["blur_score"] < min_blur_score`
(line 843): the skip condition of the frames loop. -/
def blurDrop (fj : PolyFrameJson) (minBlurScore : ℚ) : Bool :=
  match fj.blur_score with
  | some b => decide (b < minBlurScore)
  | none => false

/-- The `transform_matrix` written for one Polycam frame (lines 849-854):
rows `[t_2*, t_0*, t_1*, [0,0,0,1]]` taken directly from the json. -/
def polycamMatrix (fj : PolyFrameJson) : M4 :=
  Matrix.of
    ![![fj.t20, fj.t21, fj.t22, fj.t23],
      ![fj.t00, fj.t01, fj.t02, fj.t03],
      ![fj.t10, fj.t11, fj.t12, fj.t13],
      ![0, 0, 0, 1]]

/-- The raw Polycam pose entries `t_00 … t_23` as the 3×4 matrix they form in
the json (row `r`, column `c` holding `t_rc`). -/
def polycamRaw (fj : PolyFrameJson) : Matrix (Fin 3) (Fin 4) ℚ :=
  Matrix.of
    ![![fj.t00, fj.t01, fj.t02, fj.t03],
      ![fj.t10, fj.t11, fj.t12, fj.t13],
      ![fj.t20, fj.t21, fj.t22, fj.t23]]

/-- One output frame of `polycam_to_json`: `file_path` is
`f"./images/frame_{i+1:05d}{suffix}"`, recorded here by its index `i+1`. -/
structure PolyOutFrame where
  filePathIdx : ℕ
  transform : M4

/-- The frames loop of `polycam_to_json` (lines 838-855): enumerate the
sampled image list, skip a frame when `blurDrop`, otherwise emit a frame
whose `file_path` index is the **pre-filter** position `i+1`. -/
def polycamFrames (fjs : List PolyFrameJson) (minBlurScore : ℚ) : List PolyOutFrame :=
  fjs.enum.filterMap fun p =>
    if blurDrop p.2 minBlurScore then none
    else some ⟨p.1 + 1, polycamMatrix p.2⟩

/-- `skipped_frames` as counted by the loop (lines 839, 843-845). -/
def polycamSkipped (fjs : List PolyFrameJson) (minBlurScore : ℚ) : ℕ :=
  fjs.countP fun fj => blurDrop fj minBlurScore

/-- The summary built at lines 861-864. -/
def polycamSummary (total skipped : ℕ) : List String :=
  (if 0 < skipped then ["Skipped " ++ toString skipped ++ " frames due to low blur score."]
   else [])
    ++ ["Final dataset is " ++ toString (total - skipped) ++ " frames."]

/-- Observable outcome of one `polycam_to_json` call. -/
structure PolycamRun where
  /-- `some frames` once `transforms.json` has been written with that frames
  list; `none` would mean no descriptor was written. -/
  descriptorFrames : Option (List PolyOutFrame)
  summary : List String
  /-- `some c` models `sys.exit(c)`. -/
  exitCode : Option ℕ

/-- `polycam_to_json` (lines 838-870): the descriptor is written at line 858,
*before* the `len(image_filenames) - skipped_frames == 0` check at line 866
that calls `sys.exit(1)`. -/
def polycamToJson (fjs : List PolyFrameJson) (minBlurScore : ℚ) : PolycamRun where
  descriptorFrames := some (polycamFrames fjs minBlurScore)
  summary := polycamSummary fjs.length (polycamSkipped fjs minBlurScore)
  exitCode :=
    if fjs.length - polycamSkipped fjs minBlurScore = 0 then some 1 else none

/-- Modelled from the spec (§4.4): "a frame is dropped iff `blur_score` is
present and `blur_score < min_blur_score`. Frames with no blur score are
always kept." -/
def specKeep (fj : PolyFrameJson) (minBlurScore : ℚ) : Bool :=
  match fj.blur_score with
  | none => true
  | some b => decide (minBlurScore ≤ b)

lemma blurDrop_eq_not_specKeep (fj : PolyFrameJson) (thr : ℚ) :
    blurDrop fj thr = !specKeep fj thr := by
  unfold blurDrop specKeep
  cases fj.blur_score with
  | none => rfl
  | some b =>
    rw [← decide_not]
    exact decide_eq_decide.mpr lt_iff_not_le

lemma polycamFrames_eq_filter (fjs : List PolyFrameJson) (thr : ℚ) :
    polycamFrames fjs thr =
      (fjs.enum.filter fun p => specKeep p.2 thr).map fun p =>
        ⟨p.1 + 1, polycamMatrix p.2⟩ := by
  unfold polycamFrames
  have hfun : (fun p : ℕ × PolyFrameJson =>
      if blurDrop p.2 thr then none
      else some (⟨p.1 + 1, polycamMatrix p.2⟩ : PolyOutFrame)) =
      fun p =>
        if specKeep p.2 thr then some ⟨p.1 + 1, polycamMatrix p.2⟩ else none := by
    funext p
    rw [blurDrop_eq_not_specKeep]
    cases specKeep p.2 thr <;> rfl
  rw [hfun]
  induction fjs.enum with
  | nil => rfl
  | cons p ps ih =>
    rw [List.filterMap_cons, List.filter_cons]
    cases h : specKeep p.2 thr <;> simp [h, ih]

lemma countP_keep_length (thr : ℚ) (fjs : List PolyFrameJson) :
    ∀ n : ℕ,
      ((List.enumFrom n fjs).filter fun p => specKeep p.2 thr).length
        + fjs.countP (fun fj => blurDrop fj thr) = fjs.length := by
  induction fjs with
  | nil => intro n; rfl
  | cons fj fjs ih =>
    intro n
    rw [List.enumFrom_cons, List.filter_cons, List.countP_cons]
    have hihn := ih (n + 1)
    cases h : specKeep fj thr with
    | true =>
      have hd : blurDrop fj thr = false := by rw [blurDrop_eq_not_specKeep, h]; rfl
      simp only [h, hd]
      simp
      omega
    | false =>
      have hd : blurDrop fj thr = true := by rw [blurDrop_eq_not_specKeep, h]; rfl
      simp only [h, hd]
      simp
      omega

lemma polycamFrames_length (fjs : List PolyFrameJson) (thr : ℚ) :
    (polycamFrames fjs thr).length + polycamSkipped fjs thr = fjs.length := by
  rw [polycamFrames_eq_filter, List.length_map]
  unfold polycamSkipped
  rw [show fjs.enum = List.enumFrom 0 fjs from rfl]
  exact countP_keep_length thr fjs 0

lemma polycamFrames_indices_pairwise (fjs : List PolyFrameJson) (thr : ℚ) :
    ((polycamFrames fjs thr).map (·.filePathIdx)).Pairwise (· < ·) := by
  rw [polycamFrames_eq_filter, List.map_map]
  have henum : fjs.enum.Pairwise (fun p q : ℕ × PolyFrameJson => p.1 < q.1) := by
    have h1 : (fjs.enum.map Prod.fst).Pairwise (· < ·) := by
      rw [List.enum_map_fst]
      exact List.pairwise_lt_range _
    exact List.pairwise_map.mp h1
  refine List.pairwise_map.mpr ?_
  exact (henum.filter fun p => specKeep p.2 thr).imp fun h => Nat.add_lt_add_right h 1

lemma polycamFrames_indices_all_kept (fjs : List PolyFrameJson) (thr : ℚ)
    (h : ∀ fj ∈ fjs, blurDrop fj thr = false) :
    (polycamFrames fjs thr).map (·.filePathIdx) = List.range' 1 fjs.length := by
  rw [polycamFrames_eq_filter, List.map_map]
  have hkeep : ∀ p ∈ fjs.enum, specKeep p.2 thr = true := by
    intro p hp
    have := h p.2 (List.snd_mem_of_mem_enumFrom hp)
    rw [blurDrop_eq_not_specKeep] at this
    cases hk : specKeep p.2 thr
    · rw [hk] at this; cases this
    · rfl
  rw [List.filter_eq_self.mpr hkeep]
  have : (List.map ((fun f : PolyOutFrame => f.filePathIdx) ∘ fun p : ℕ × PolyFrameJson =>
      ⟨p.1 + 1, polycamMatrix p.2⟩) fjs.enum) = fjs.enum.map fun p => p.1 + 1 := rfl
  rw [this]
  rw [show (fjs.enum.map fun p => p.1 + 1) = fjs.enum.map ((fun i => i + 1) ∘ Prod.fst)
    from rfl]
  rw [← List.map_map, List.enum_map_fst, List.range'_eq_map_range]
  exact List.map_congr_left fun i _ => Nat.add_comm i 1

/-! ### Match-quality diagnostic (`get_matching_summary`, lines 776-800) -/

/-- Which of the four messages `get_matching_summary` returns. -/
inductive MatchBand where
  /-- `"COLAMP found poses for all images, CONGRATS!"` (line 788). -/
  | allPosed
  /-- `"COLMAP only found poses for …%  … This is low."` (lines 790-793). -/
  | lowQuality
  /-- `"… This isn't great, but may be ok."` (lines 794-799). -/
  | mediumQuality
  /-- `"COLMAP found poses for …% of the images."` (line 800). -/
  | success
deriving DecidableEq

/-- `get_matching_summary` (lines 776-800), abstracted to the message band:
`match_ratio = num_matched_frames / num_intial_frames`, then
`if match_ratio == 1`, `if match_ratio < 0.4`, `if match_ratio < 0.8`,
else the success message.  It only builds a string: it never exits. -/
def getMatchingSummary (numIntialFrames numMatchedFrames : ℕ) : MatchBand :=
  let r : ℚ := (numMatchedFrames : ℚ) / (numIntialFrames : ℚ)
  if r = 1 then .allPosed
  else if r < 2 / 5 then .lowQuality
  else if r < 4 / 5 then .mediumQuality
  else .success

/-! ### OpenSfM intrinsics (`opensfm_to_json`, lines 643-652) -/

/-- One camera record of an OpenSfM `reconstruction.json`: optional focal and
principal-point fields, mandatory `width`/`height`. -/
structure OpenSfMCamera where
  focal_x : Option ℚ := none
  focal_y : Option ℚ := none
  c_x : Option ℚ := none
  c_y : Option ℚ := none
  width : ℚ
  height : ℚ

/-- The canonical intrinsics fields relevant to C9. -/
structure CanonIntrinsics where
  fl_x : ℚ
  fl_y : ℚ
  cx : ℚ
  cy : ℚ

/-- Lines 645-648 of `opensfm_to_json`:
`"fl_x": float(cam["focal_x"]) if "focal_x" in cam else float(cam["height"])`,
likewise `fl_y`; `"cx": float(cam["c_x"]) if "c_x" in cam else 0.5 * cam["width"]`,
likewise `cy` with `height`. -/
def opensfmIntrinsics (cam : OpenSfMCamera) : CanonIntrinsics where
  fl_x := match cam.focal_x with | some v => v | none => cam.height
  fl_y := match cam.focal_y with | some v => v | none => cam.height
  cx := match cam.c_x with | some v => v | none => 1 / 2 * cam.width
  cy := match cam.c_y with | some v => v | none => 1 / 2 * cam.height

/-! ### Concrete poses used by witnesses and counterexamples -/

/-- A degenerate pose: zero rotation (not invertible) and zero translation. -/
def singularPose : M3 × V3 := (0, 0)

/-- A regular pose: identity rotation, zero translation. -/
def idPose : M3 × V3 := (1, 0)

lemma w2cOf_singular_det : (w2cOf singularPose.1 singularPose.2).det = 0 := by
  apply Matrix.det_eq_zero_of_row_eq_zero 0
  intro j
  fin_cases j <;> rfl

lemma w2cOf_idPose : w2cOf idPose.1 idPose.2 = 1 := by
  ext i j
  fin_cases i <;> fin_cases j <;> decide

/-! ### Claim theorems -/

/-- C1: for every raw world-to-camera pose (3×3 rotation `R`, translation
`t`), the canonical camera-to-world matrix written to the dataset equals the
result of building `W2C = [[R|t],[0,0,0,1]]`, inverting it, negating columns
1 and 2 of the top-left 3×3 block, permuting rows to `[1,0,2,3]`, and
negating row 2 — identically for the binary-reconstruction (COLMAP) and
JSON-reconstruction (OpenSfM) backends. -/
theorem C1_pose_conversion_canonical (R : M3) (t : V3) :
    colmapC2W R t = specC2W R t ∧ opensfmC2W R t = specC2W R t :=
  ⟨rfl, rfl⟩

/-- C1 witness: the conversion agreement at the identity pose. -/
theorem C1_witness :
    colmapC2W 1 0 = specC2W 1 0 ∧ opensfmC2W 1 0 = specC2W 1 0 :=
  C1_pose_conversion_canonical 1 0

/-- C2 counterexample: with a singular first frame and a perfectly regular
second frame, the conversion loop returns an error for the *whole* list (the
uncaught `LinAlgError` aborts the run), while a list with only the regular
frame succeeds — so the singular frame is not "excluded with the pipeline
continuing on the remaining frames". -/
theorem C2_counterexample :
    convertFramesE [singularPose, idPose] = Except.error ()
    ∧ convertFramesE [idPose] ≠ Except.error () := by
  constructor
  · exact convertFramesE_error singularPose (List.mem_cons_self _ _) w2cOf_singular_det
  · intro h
    have hq : (w2cOf idPose.1 idPose.2).det ≠ 0 := by
      rw [w2cOf_idPose, Matrix.det_one]
      exact one_ne_zero
    have hpose : convertPoseE idPose.1 idPose.2
        = Except.ok (negRow2 (permRows1023 (flipCols12 (npLinalgInvMat
            (w2cOf idPose.1 idPose.2))))) := by
      unfold convertPoseE npLinalgInvE
      rw [if_neg hq]
      rfl
    rw [show convertFramesE [idPose]
        = Except.ok [negRow2 (permRows1023 (flipCols12 (npLinalgInvMat
            (w2cOf idPose.1 idPose.2))))] from by
      simp only [convertFramesE, hpose]
      rfl] at h
    exact Except.noConfusion h

/-- C2 (amended): a frame whose rotation is not invertible makes
`np.linalg.inv` raise an uncaught error, aborting the whole conversion: no
frame list is produced at all, rather than the frame being dropped with a
warning while the pipeline continues. -/
theorem C2_singular_pose_aborts (ps : List (M3 × V3)) (p : M3 × V3)
    (hmem : p ∈ ps) (hdet : (w2cOf p.1 p.2).det = 0) :
    convertFramesE ps = Except.error () :=
  convertFramesE_error p hmem hdet

/-- C2 witness: the amended theorem applied to a concrete singular pose. -/
theorem C2_witness : convertFramesE [singularPose] = Except.error () :=
  C2_singular_pose_aborts [singularPose] singularPose (List.mem_cons_self _ _)
    w2cOf_singular_det

/-- C10: for every Polycam frame record, the output `transform_matrix` is a
pure row permutation of the raw `t_**` matrix with no sign changes: output
row 0 is raw row 2, output row 1 is raw row 0, output row 2 is raw row 1,
and output row 3 is exactly `[0,0,0,1]` — no inversion or negation step is
applied on this path. -/
theorem C10_polycam_row_permutation (fj : PolyFrameJson) :
    (∀ j, polycamMatrix fj 0 j = polycamRaw fj 2 j)
    ∧ (∀ j, polycamMatrix fj 1 j = polycamRaw fj 0 j)
    ∧ (∀ j, polycamMatrix fj 2 j = polycamRaw fj 1 j)
    ∧ (∀ j, polycamMatrix fj 3 j = ![(0 : ℚ), 0, 0, 1] j) := by
  refine ⟨?_, ?_, ?_, ?_⟩ <;> intro j <;> fin_cases j <;> rfl

/-- A Polycam frame with a distinctive raw entry. -/
def exPoly : PolyFrameJson := { t20 := 7 }

/-- C10 witness: the row permutation evaluated at a concrete frame: the
distinctive `t_20` entry lands at position `(0,0)` and the homogeneous `1`
at `(3,3)`. -/
theorem C10_witness : polycamMatrix exPoly 0 0 = 7 ∧ polycamMatrix exPoly 3 3 = 1 := by
  constructor
  · rw [(C10_polycam_row_permutation exPoly).1 0]
    rfl
  · rw [(C10_polycam_row_permutation exPoly).2.2.2 3]
    rfl

/-- C7: for every `initial_frame_count > 0` and `final_posed_frame_count`,
with `ratio = final/initial`: `ratio == 1` gives the "all frames posed"
success band; `ratio < 0.4` the low band; `0.4 ≤ ratio < 0.8` the medium
band; `ratio ≥ 0.8` with `ratio ≠ 1` the success band.  The function only
chooses a message and never aborts. -/
theorem C7_match_band (ni nm : ℕ) (hpos : 0 < ni) :
    ((nm : ℚ) / (ni : ℚ) = 1 → getMatchingSummary ni nm = .allPosed)
    ∧ ((nm : ℚ) / (ni : ℚ) < 2 / 5 → getMatchingSummary ni nm = .lowQuality)
    ∧ (2 / 5 ≤ (nm : ℚ) / (ni : ℚ) ∧ (nm : ℚ) / (ni : ℚ) < 4 / 5 →
        getMatchingSummary ni nm = .mediumQuality)
    ∧ (4 / 5 ≤ (nm : ℚ) / (ni : ℚ) ∧ (nm : ℚ) / (ni : ℚ) ≠ 1 →
        getMatchingSummary ni nm = .success) := by
  unfold getMatchingSummary
  refine ⟨fun hr => ?_, fun hr => ?_, fun hr => ?_, fun hr => ?_⟩
  · rw [if_pos hr]
  · rw [if_neg (by intro he; rw [he] at hr; norm_num at hr), if_pos hr]
  · rw [if_neg (by intro he; rw [he] at hr; norm_num at hr),
      if_neg (not_lt.mpr hr.1), if_pos hr.2]
  · rw [if_neg hr.2, if_neg (not_lt.mpr (by linarith [hr.1])),
      if_neg (not_lt.mpr hr.1)]

/-- C7 witness: the four sample classifications of the claim,
`(100,100) ↦ all posed`, `(100,35) ↦ low`, `(100,60) ↦ medium`,
`(100,85) ↦ success`, via the theorem. -/
theorem C7_witness :
    getMatchingSummary 100 100 = .allPosed
    ∧ getMatchingSummary 100 35 = .lowQuality
    ∧ getMatchingSummary 100 60 = .mediumQuality
    ∧ getMatchingSummary 100 85 = .success :=
  ⟨(C7_match_band 100 100 (by norm_num)).1 (by norm_num),
   (C7_match_band 100 35 (by norm_num)).2.1 (by norm_num),
   (C7_match_band 100 60 (by norm_num)).2.2.1 ⟨by norm_num, by norm_num⟩,
   (C7_match_band 100 85 (by norm_num)).2.2.2 ⟨by norm_num, by norm_num⟩⟩

/-- C9: for every OpenSfM camera record, the canonical intrinsics use the
defined fallbacks exactly when fields are omitted: absent principal point
gives `cx = width/2`, `cy = height/2`; absent focal length gives
`fl_x = fl_y = height`; present fields are taken verbatim. -/
theorem C9_opensfm_fallbacks (cam : OpenSfMCamera) :
    (cam.c_x = none → (opensfmIntrinsics cam).cx = cam.width / 2)
    ∧ (cam.c_y = none → (opensfmIntrinsics cam).cy = cam.height / 2)
    ∧ (cam.focal_x = none → (opensfmIntrinsics cam).fl_x = cam.height)
    ∧ (cam.focal_y = none → (opensfmIntrinsics cam).fl_y = cam.height)
    ∧ (∀ v, cam.c_x = some v → (opensfmIntrinsics cam).cx = v)
    ∧ (∀ v, cam.c_y = some v → (opensfmIntrinsics cam).cy = v)
    ∧ (∀ v, cam.focal_x = some v → (opensfmIntrinsics cam).fl_x = v)
    ∧ (∀ v, cam.focal_y = some v → (opensfmIntrinsics cam).fl_y = v) := by
  unfold opensfmIntrinsics
  refine ⟨fun h => ?_, fun h => ?_, fun h => ?_, fun h => ?_,
    fun v h => ?_, fun v h => ?_, fun v h => ?_, fun v h => ?_⟩ <;>
    simp only [h] <;> ring

/-- A camera record with every optional field omitted. -/
def camBare : OpenSfMCamera := { width := 1920, height := 1080 }

/-- A camera record carrying its own focal length and principal point. -/
def camFull : OpenSfMCamera :=
  { focal_x := some 1200, focal_y := some 1210, c_x := some 955, c_y := some 545,
    width := 1920, height := 1080 }

/-- C9 witness: the theorem applied to a camera with no optional fields
(`1920×1080`) and to one with explicit values. -/
theorem C9_witness :
    (opensfmIntrinsics camBare).cx = 960
    ∧ (opensfmIntrinsics camBare).fl_x = 1080
    ∧ (opensfmIntrinsics camFull).cx = 955
    ∧ (opensfmIntrinsics camFull).fl_x = 1200 := by
  refine ⟨?_, ?_, ?_, ?_⟩
  · rw [(C9_opensfm_fallbacks camBare).1 rfl]
    norm_num [camBare]
  · exact (C9_opensfm_fallbacks camBare).2.2.1 rfl
  · exact (C9_opensfm_fallbacks camFull).2.2.2.2.1 955 rfl
  · exact (C9_opensfm_fallbacks camFull).2.2.2.2.2.2.1 1200 rfl

/-- C8: for every total frame count `N ≥ 1`, if the cap satisfies `max ≥ N`
or `max == -1`, the frame sampler returns `[0..N-1]` unchanged. -/
theorem C8_sampler_identity (N : ℕ) (maxSize : ℤ) (hN : 1 ≤ N)
    (h : maxSize = -1 ∨ (N : ℤ) ≤ maxSize) :
    frameSampler N maxSize = (List.range N).map Int.ofNat := by
  unfold frameSampler
  rw [if_neg]
  rintro ⟨h1, h2⟩
  rcases h with h | h
  · exact h1 h
  · omega

/-- C8 witness: an uncapped run (`max = -1`) over three frames keeps
`[0, 1, 2]`. -/
theorem C8_witness : frameSampler 3 (-1) = [0, 1, 2] := by
  rw [C8_sampler_identity 3 (-1) (by norm_num) (Or.inl rfl)]
  decide

/-- C4 counterexample: at `N = 2`, `max = 1` the sampler returns `[0]`
(numpy `linspace(0, 1, 1)` yields only the start point), so the last
selected index is `0`, not `N - 1 = 1` as the claim requires. -/
theorem C4_counterexample :
    frameSampler 2 1 = [0] ∧ (frameSampler 2 1).getLast? ≠ some ((2 : ℤ) - 1) := by
  have h1 : frameSampler 2 1 = [0] := by
    unfold frameSampler
    rw [if_pos ⟨by decide, by decide⟩]
    show [npRound (linVal 0 ((2 : ℚ) - 1) 1 0)] = [0]
    rw [linVal_zero]
    rw [show ((0 : ℚ)) = ((0 : ℤ) : ℚ) by norm_num, npRound_intCast]
  refine ⟨h1, ?_⟩
  rw [h1]
  decide

/-- C4 (amended): for `N ≥ 1`, `max ≥ 1`, `max < N` the sampler returns
`round(linspace(0, N-1, max))`: exactly `max` indices, non-decreasing, first
index `0`, preserving relative order; the last index equals `N - 1` whenever
`max ≥ 2`, while for `max = 1` the output is the single index `0` (numpy's
one-point linspace keeps only the start), not `N - 1`. -/
theorem C4_sampler_bounds (N : ℕ) (maxSize : ℤ) (h1 : 1 ≤ maxSize)
    (h2 : maxSize < (N : ℤ)) :
    frameSampler N maxSize = (npLinspace 0 ((N : ℚ) - 1) maxSize.toNat).map npRound
    ∧ (frameSampler N maxSize).length = maxSize.toNat
    ∧ (frameSampler N maxSize).Pairwise (· ≤ ·)
    ∧ (frameSampler N maxSize).head? = some 0
    ∧ (2 ≤ maxSize → (frameSampler N maxSize).getLast? = some ((N : ℤ) - 1))
    ∧ (maxSize = 1 → frameSampler N maxSize = [0]) := by
  have heq : frameSampler N maxSize
      = (npLinspace 0 ((N : ℚ) - 1) maxSize.toNat).map npRound := by
    unfold frameSampler
    rw [if_pos ⟨by omega, h2⟩]
  have hN2 : 2 ≤ N := by omega
  have hstop : (0 : ℚ) ≤ (N : ℚ) - 1 := by
    have : (2 : ℚ) ≤ (N : ℚ) := by exact_mod_cast hN2
    linarith
  have hnum1 : 1 ≤ maxSize.toNat := by omega
  refine ⟨heq, ?_, ?_, ?_, ?_, ?_⟩
  · rw [heq]
    unfold npLinspace
    rw [List.length_map, List.length_map, List.length_range]
  · rw [heq]
    unfold npLinspace
    rw [List.map_map]
    refine List.pairwise_map.mpr ?_
    exact (List.pairwise_lt_range _).imp fun hij =>
      npRound_mono (linVal_mono 0 ((N : ℚ) - 1) maxSize.toNat hstop (Nat.le_of_lt hij))
  · rw [heq]
    unfold npLinspace
    rw [List.map_map]
    obtain ⟨k, hk⟩ : ∃ k, maxSize.toNat = k + 1 := ⟨maxSize.toNat - 1, by omega⟩
    rw [hk, List.range_succ_eq_map]
    have h0 : npRound (linVal 0 ((N : ℚ) - 1) (k + 1) 0) = 0 := by
      rw [linVal_zero, show ((0 : ℚ)) = ((0 : ℤ) : ℚ) by norm_num, npRound_intCast]
    simp [Function.comp, h0]
  · intro hm2
    rw [heq]
    unfold npLinspace
    rw [List.map_map]
    obtain ⟨k, hk⟩ : ∃ k, maxSize.toNat = k + 1 := ⟨maxSize.toNat - 1, by omega⟩
    rw [hk, List.range_succ, List.map_append]
    have hl : linVal 0 ((N : ℚ) - 1) (k + 1) k = (N : ℚ) - 1 := by
      simpa using linVal_last 0 ((N : ℚ) - 1) (show 2 ≤ k + 1 by omega)
    have hcast : ((N : ℚ) - 1) = (((N : ℤ) - 1 : ℤ) : ℚ) := by push_cast; ring
    rw [show List.map (npRound ∘ linVal 0 ((N : ℚ) - 1) (k + 1)) [k]
        = [npRound (linVal 0 ((N : ℚ) - 1) (k + 1) k)] from rfl]
    rw [List.getLast?_concat, hl, hcast, npRound_intCast]
  · intro hone
    subst hone
    rw [heq]
    unfold npLinspace
    show [npRound (linVal 0 ((N : ℚ) - 1) (Int.toNat 1) 0)] = [0]
    rw [linVal_zero, show ((0 : ℚ)) = ((0 : ℤ) : ℚ) by norm_num, npRound_intCast]

/-- C4 witness: the amended theorem at `N = 5`, `max = 3`: three indices,
first `0`, last `4`. -/
theorem C4_witness :
    (frameSampler 5 3).length = 3
    ∧ (frameSampler 5 3).head? = some 0
    ∧ (frameSampler 5 3).getLast? = some 4 := by
  have h := C4_sampler_bounds 5 3 (by norm_num) (by norm_num)
  refine ⟨by simpa using h.2.1, h.2.2.2.1, ?_⟩
  have := h.2.2.2.2.1 (by norm_num)
  simpa using this

/-- The blur-filter example of the claims: scores `[10, 30, None]`. -/
def exFrames3 : List PolyFrameJson :=
  [{ blur_score := some 10 }, { blur_score := some 30 }, { blur_score := none }]

/-- C3 counterexample: with scores `[10, 30, None]` and threshold `25`, the
written `file_path` indices are `[2, 3]` — not the contiguous 1-indexed
sequence `[1, 2]` the claim requires after blur filtering. -/
theorem C3_counterexample :
    (polycamFrames exFrames3 25).map (·.filePathIdx) = [2, 3]
    ∧ (polycamFrames exFrames3 25).map (·.filePathIdx)
        ≠ List.range' 1 (polycamFrames exFrames3 25).length := by
  constructor
  · rfl
  · decide

/-- C3 (amended): each written `file_path` index is `1 +` the position the
surviving frame had in the pre-filter sampled sequence (the position
`copy_images_list` used for the on-disk name), so the indices are strictly
increasing and pairwise distinct (no duplicates); whenever no frame is
dropped they form the contiguous sequence `1..K`, but after blur filtering
they need not be contiguous (the counterexample's `[2, 3]`). -/
theorem C3_file_path_indices (fjs : List PolyFrameJson) (thr : ℚ) :
    (polycamFrames fjs thr).map (·.filePathIdx)
      = (fjs.enum.filter fun p => specKeep p.2 thr).map (fun p => p.1 + 1)
    ∧ ((polycamFrames fjs thr).map (·.filePathIdx)).Pairwise (· < ·)
    ∧ ((polycamFrames fjs thr).map (·.filePathIdx)).Nodup
    ∧ ((∀ fj ∈ fjs, blurDrop fj thr = false) →
        (polycamFrames fjs thr).map (·.filePathIdx) = List.range' 1 fjs.length) :=
  ⟨by rw [polycamFrames_eq_filter, List.map_map]; rfl,
   polycamFrames_indices_pairwise fjs thr,
   (polycamFrames_indices_pairwise fjs thr).imp ne_of_lt,
   polycamFrames_indices_all_kept fjs thr⟩

/-- C3 witness: with threshold `5` no frame of the example is dropped, and
the indices are the contiguous `[1, 2, 3]`. -/
theorem C3_witness :
    ((polycamFrames exFrames3 5).map (·.filePathIdx)).Nodup
    ∧ (polycamFrames exFrames3 5).map (·.filePathIdx) = [1, 2, 3] := by
  have h := C3_file_path_indices exFrames3 5
  refine ⟨h.2.2.1, ?_⟩
  rw [h.2.2.2 (by decide)]
  rfl

/-- C5 counterexample: one frame with blur score `10` under threshold `25`:
the run does exit with status 1, but the dataset descriptor has already been
written (with an empty frames list) — contradicting "no dataset descriptor
is written for that failing run". -/
theorem C5_counterexample :
    (polycamToJson [{ blur_score := some 10 }] 25).exitCode = some 1
    ∧ (polycamToJson [{ blur_score := some 10 }] 25).descriptorFrames ≠ none := by
  constructor
  · rfl
  · intro h
    rw [show (polycamToJson [{ blur_score := some 10 }] 25).descriptorFrames
        = some [] from rfl] at h
    exact Option.noConfusion h

/-- C5 (amended): if blur filtering leaves zero frames (on a nonempty
input), the run exits with status 1, but only after `transforms.json` has
already been written with an empty frames list: the write is not
all-or-nothing, and no `EmptyDatasetError` exception exists (a console
message plus `sys.exit(1)`). -/
theorem C5_empty_after_filter (fjs : List PolyFrameJson) (thr : ℚ)
    (hne : fjs ≠ []) (hempty : polycamFrames fjs thr = []) :
    (polycamToJson fjs thr).exitCode = some 1
    ∧ (polycamToJson fjs thr).descriptorFrames = some [] := by
  have hlen := polycamFrames_length fjs thr
  rw [hempty] at hlen
  simp only [List.length_nil, Nat.zero_add] at hlen
  unfold polycamToJson
  constructor
  · simp [hlen]
  · simp only [hempty]

/-- C5 witness: the amended theorem at the one-frame input whose only frame
is dropped. -/
theorem C5_witness :
    (polycamToJson [{ blur_score := some 10 }] 25).exitCode = some 1
    ∧ (polycamToJson [{ blur_score := some 10 }] 25).descriptorFrames = some [] :=
  C5_empty_after_filter [{ blur_score := some 10 }] 25 (by simp) rfl

/-- C6: a frame is dropped iff its `blur_score` is present and below the
threshold (frames with no score are always kept): the written frames are
exactly the spec-side filter `specKeep` applied to the 1-indexed enumeration;
kept + skipped counts partition the input; and a positive skipped count is
reported in the summary. -/
theorem C6_blur_filter (fjs : List PolyFrameJson) (thr : ℚ) :
    polycamFrames fjs thr
      = ((fjs.enum.filter fun p => specKeep p.2 thr).map fun p =>
          ⟨p.1 + 1, polycamMatrix p.2⟩)
    ∧ (polycamFrames fjs thr).length + polycamSkipped fjs thr = fjs.length
    ∧ (0 < polycamSkipped fjs thr →
        ("Skipped " ++ toString (polycamSkipped fjs thr)
            ++ " frames due to low blur score.")
          ∈ (polycamToJson fjs thr).summary) := by
  refine ⟨polycamFrames_eq_filter fjs thr, polycamFrames_length fjs thr, fun hpos => ?_⟩
  unfold polycamToJson polycamSummary
  rw [if_pos hpos]
  exact List.mem_cons_self _ _

/-- C6 witness: scores `[10, 30, None]` with threshold `25` keep exactly the
second and third frames (file indices 2 and 3), and the skipped count `1` is
reported in the summary. -/
theorem C6_witness :
    polycamFrames exFrames3 25
      = [⟨2, polycamMatrix { blur_score := some 30 }⟩,
         ⟨3, polycamMatrix { blur_score := none }⟩]
    ∧ ("Skipped " ++ toString (polycamSkipped exFrames3 25)
          ++ " frames due to low blur score.")
        ∈ (polycamToJson exFrames3 25).summary := by
  refine ⟨rfl, ?_⟩
  exact (C6_blur_filter exFrames3 25).2.2 (by decide)

end ProcessData
